import Mathlib

/-!
Verification of the oarc-neuralnotebook core against its specification.

The repository ships two variants of the notebook core:
* the modular package `src/notebook_utils.py` / `src/neural_notebook_ui.py` /
  `src/ollama_agent.py` (the one `src/main_script.py` runs), and
* the legacy monolith `NeuralNotebook_V1.py`.

Both are embedded below where they differ (the tagged-content parser and
`to_dict` differ between the two).  Strings are modelled as `List Char`
(`Str`); Python's `re` operations used by the code are unfolded to their
concrete leftmost-scan semantics on the fixed patterns the code uses.
-/

namespace NeuralNotebook

/-- Text is modelled as a list of characters. -/
abbrev Str := List Char

/-- Shorthand turning a Lean string literal into the `List Char` model. -/
def str (s : String) : Str := s.toList

/-- Python `str` whitespace (ASCII): the characters stripped by `str.strip()`
and matched by `\s` in the patterns the code uses. -/
def isPySpace (c : Char) : Bool :=
  c = ' ' || c = '\t' || c = '\n' || c = '\r' || c = '\x0b' || c = '\x0c'

/-- Python `str.strip()`: drop leading and trailing whitespace. -/
def pyStrip (s : Str) : Str :=
  ((s.dropWhile isPySpace).reverse.dropWhile isPySpace).reverse

/-- Index of the first occurrence of `pat` in `s` (Python `str.find`,
returning `none` for Python's `-1`); also models the `in` operator. -/
def findSub (pat : Str) : Str → Option Nat
  | [] => if pat = [] then some 0 else none
  | s@(_ :: rest) =>
    if pat.isPrefixOf s then some 0 else (findSub pat rest).map (· + 1)

/-- Python's `pat in s` substring test. -/
def hasSub (pat s : Str) : Bool := (findSub pat s).isSome

theorem findSub_nil (pat : Str) :
    findSub pat [] = if pat = [] then some 0 else none := rfl

theorem findSub_cons (pat : Str) (c : Char) (rest : Str) :
    findSub pat (c :: rest) =
      if pat.isPrefixOf (c :: rest) then some 0
      else (findSub pat rest).map (· + 1) := rfl

theorem findSub_some_bound {pat s : Str} {i : Nat} (h : findSub pat s = some i) :
    i + pat.length ≤ s.length := by
  induction s generalizing i with
  | nil =>
    rw [findSub_nil] at h
    split at h
    · simp_all
    · simp at h
  | cons c rest ih =>
    rw [findSub_cons] at h
    split at h
    · rename_i hp
      cases h
      simpa using (List.isPrefixOf_iff_prefix.mp hp).length_le
    · rcases Option.map_eq_some'.mp h with ⟨j, hj, rfl⟩
      have := ih hj
      simp only [List.length_cons]
      omega

theorem findSub_some_isInfix {pat s : Str} {i : Nat} (h : findSub pat s = some i) :
    pat <:+: s := by
  induction s generalizing i with
  | nil =>
    rw [findSub_nil] at h
    split at h
    · simp_all
    · simp at h
  | cons c rest ih =>
    rw [findSub_cons] at h
    split at h
    · rename_i hp
      exact (List.isPrefixOf_iff_prefix.mp hp).isInfix
    · rcases Option.map_eq_some'.mp h with ⟨j, hj, rfl⟩
      exact (ih hj).trans (List.suffix_cons c rest).isInfix

theorem findSub_none_iff {pat s : Str} (hne : pat ≠ []) :
    findSub pat s = none ↔ ¬ pat <:+: s := by
  induction s with
  | nil =>
    rw [findSub_nil, if_neg hne]
    constructor
    · intro _ h
      exact hne (List.eq_nil_of_infix_nil h)
    · intro _
      rfl
  | cons c rest ih =>
    rw [findSub_cons]
    split
    · rename_i hp
      constructor
      · intro h
        simp at h
      · intro h
        exact absurd (List.isPrefixOf_iff_prefix.mp hp).isInfix h
    · rename_i hp
      rw [Option.map_eq_none', ih, List.infix_cons_iff]
      constructor
      · intro h hc
        rcases hc with hc | hc
        · exact hp (List.isPrefixOf_iff_prefix.mpr hc)
        · exact h hc
      · intro h hc
        exact h (Or.inr hc)

theorem hasSub_iff_isInfix {pat s : Str} (hne : pat ≠ []) :
    hasSub pat s = true ↔ pat <:+: s := by
  unfold hasSub
  cases hfs : findSub pat s with
  | none =>
    constructor
    · intro h
      simp at h
    · intro h
      exact absurd h ((findSub_none_iff hne).mp hfs)
  | some i =>
    constructor
    · intro _
      exact findSub_some_isInfix hfs
    · intro _
      rfl

/-- If `pat` occurs in an infix of `s`, it occurs in `s`. -/
theorem hasSub_mono {pat t s : Str} (hne : pat ≠ []) (hts : t <:+: s)
    (h : hasSub pat t = true) : hasSub pat s = true := by
  rw [hasSub_iff_isInfix hne] at h ⊢
  exact h.trans hts

theorem pyStrip_isInfix (s : Str) : pyStrip s <:+: s := by
  unfold pyStrip
  have h1 : (s.dropWhile isPySpace) <:+ s := List.dropWhile_suffix _
  have h2 : ((s.dropWhile isPySpace).reverse.dropWhile isPySpace).reverse
      <+: (s.dropWhile isPySpace) := by
    have := List.reverse_prefix.mpr
      (List.dropWhile_suffix (l := (s.dropWhile isPySpace).reverse) isPySpace)
    simpa using this
  exact h2.isInfix.trans h1.isInfix

theorem pyStrip_eq_nil_iff (s : Str) : pyStrip s = [] ↔ ∀ c ∈ s, isPySpace c := by
  unfold pyStrip
  rw [List.reverse_eq_nil_iff, List.dropWhile_eq_nil_iff]
  simp only [List.mem_reverse]
  constructor
  · intro h c hc
    conv at hc => rw [← List.takeWhile_append_dropWhile (p := isPySpace) (l := s)]
    rcases List.mem_append.mp hc with hc | hc
    · exact List.mem_takeWhile_imp hc
    · exact h c hc
  · intro h c hc
    exact h c ((List.dropWhile_suffix isPySpace).subset hc)

/-! ## JSON values and the notebook data model

`Json` models the values Python's `json` module passes around (dicts are
association lists with distinct keys, insertion-ordered). -/

inductive Json where
  | null : Json
  | bool (b : Bool) : Json
  | num (n : Int) : Json
  | jstr (s : Str) : Json
  | arr (xs : List Json) : Json
  | obj (fields : List (Str × Json)) : Json

mutual

def Json.decEq : (a b : Json) → Decidable (a = b)
  | .null, .null => isTrue rfl
  | .null, .bool _ => isFalse (fun h => Json.noConfusion h)
  | .null, .num _ => isFalse (fun h => Json.noConfusion h)
  | .null, .jstr _ => isFalse (fun h => Json.noConfusion h)
  | .null, .arr _ => isFalse (fun h => Json.noConfusion h)
  | .null, .obj _ => isFalse (fun h => Json.noConfusion h)
  | .bool _, .null => isFalse (fun h => Json.noConfusion h)
  | .bool a, .bool b =>
    if h : a = b then isTrue (by rw [h]) else isFalse (fun he => h (Json.bool.inj he))
  | .bool _, .num _ => isFalse (fun h => Json.noConfusion h)
  | .bool _, .jstr _ => isFalse (fun h => Json.noConfusion h)
  | .bool _, .arr _ => isFalse (fun h => Json.noConfusion h)
  | .bool _, .obj _ => isFalse (fun h => Json.noConfusion h)
  | .num _, .null => isFalse (fun h => Json.noConfusion h)
  | .num _, .bool _ => isFalse (fun h => Json.noConfusion h)
  | .num a, .num b =>
    if h : a = b then isTrue (by rw [h]) else isFalse (fun he => h (Json.num.inj he))
  | .num _, .jstr _ => isFalse (fun h => Json.noConfusion h)
  | .num _, .arr _ => isFalse (fun h => Json.noConfusion h)
  | .num _, .obj _ => isFalse (fun h => Json.noConfusion h)
  | .jstr _, .null => isFalse (fun h => Json.noConfusion h)
  | .jstr _, .bool _ => isFalse (fun h => Json.noConfusion h)
  | .jstr _, .num _ => isFalse (fun h => Json.noConfusion h)
  | .jstr a, .jstr b =>
    if h : a = b then isTrue (by rw [h]) else isFalse (fun he => h (Json.jstr.inj he))
  | .jstr _, .arr _ => isFalse (fun h => Json.noConfusion h)
  | .jstr _, .obj _ => isFalse (fun h => Json.noConfusion h)
  | .arr _, .null => isFalse (fun h => Json.noConfusion h)
  | .arr _, .bool _ => isFalse (fun h => Json.noConfusion h)
  | .arr _, .num _ => isFalse (fun h => Json.noConfusion h)
  | .arr _, .jstr _ => isFalse (fun h => Json.noConfusion h)
  | .arr xs, .arr ys =>
    match Json.decEqList xs ys with
    | isTrue h => isTrue (by rw [h])
    | isFalse h => isFalse (fun he => h (Json.arr.inj he))
  | .arr _, .obj _ => isFalse (fun h => Json.noConfusion h)
  | .obj _, .null => isFalse (fun h => Json.noConfusion h)
  | .obj _, .bool _ => isFalse (fun h => Json.noConfusion h)
  | .obj _, .num _ => isFalse (fun h => Json.noConfusion h)
  | .obj _, .jstr _ => isFalse (fun h => Json.noConfusion h)
  | .obj _, .arr _ => isFalse (fun h => Json.noConfusion h)
  | .obj fs, .obj gs =>
    match Json.decEqFields fs gs with
    | isTrue h => isTrue (by rw [h])
    | isFalse h => isFalse (fun he => h (Json.obj.inj he))

def Json.decEqList : (xs ys : List Json) → Decidable (xs = ys)
  | [], [] => isTrue rfl
  | [], _ :: _ => isFalse (fun h => List.noConfusion h)
  | _ :: _, [] => isFalse (fun h => List.noConfusion h)
  | x :: xs, y :: ys =>
    match Json.decEq x y with
    | isFalse h1 => isFalse (fun he => h1 (List.cons.inj he).1)
    | isTrue h1 =>
      match Json.decEqList xs ys with
      | isTrue h2 => isTrue (by rw [h1, h2])
      | isFalse h2 => isFalse (fun he => h2 (List.cons.inj he).2)

def Json.decEqFields : (fs gs : List (Str × Json)) → Decidable (fs = gs)
  | [], [] => isTrue rfl
  | [], _ :: _ => isFalse (fun h => List.noConfusion h)
  | _ :: _, [] => isFalse (fun h => List.noConfusion h)
  | (k, v) :: fs, (k2, v2) :: gs =>
    if hk : k = k2 then
      match Json.decEq v v2 with
      | isFalse h1 =>
        isFalse (fun he => h1 (congrArg Prod.snd (List.cons.inj he).1))
      | isTrue h1 =>
        match Json.decEqFields fs gs with
        | isTrue h2 => isTrue (by rw [hk, h1, h2])
        | isFalse h2 => isFalse (fun he => h2 (List.cons.inj he).2)
    else
      isFalse (fun he => hk (congrArg Prod.fst (List.cons.inj he).1))

end

instance : DecidableEq Json := Json.decEq

/-- Python `dict.get(key)` on the association-list model of a dict. -/
def Json.lookup (fields : List (Str × Json)) (key : Str) : Option Json :=
  match fields with
  | [] => none
  | (k, v) :: rest => if k = key then some v else Json.lookup rest key

/-- State of `NotebookCell.__init__`: `cell_type`, `source` (list of strings),
`outputs`, `metadata` (`src/notebook_utils.py` lines 4-9 and the identical
`NeuralNotebook_V1.py` lines 94-99). -/
structure NotebookCell where
  cell_type : Str
  source : List Str
  outputs : List Json
  metadata : List (Str × Json)
deriving DecidableEq

/-- A Python value that is either a `str` or a `list` of `str`, as accepted by
`NotebookCell.__init__` and `NotebookDocument.update_cell` for `source`. -/
inductive PyStrOrList where
  | pstr (s : Str) : PyStrOrList
  | plist (l : List Str) : PyStrOrList
deriving DecidableEq

/-- Python `source if isinstance(source, list) else [source]`. -/
def wrapSource : PyStrOrList → List Str
  | .pstr s => [s]
  | .plist l => l

/-- Constructor call `NotebookCell(cell_type, source, outputs)` with `outputs=None`
(hence `outputs or [] = []`) and fresh `metadata = {}`. -/
def mkCell (t : Str) (src : PyStrOrList) : NotebookCell :=
  { cell_type := t, source := wrapSource src, outputs := [], metadata := [] }

/-- State of `NotebookDocument`: `cells` plus the `metadata` dict. -/
structure NotebookDocument where
  cells : List NotebookCell
  metadata : Json
deriving DecidableEq

/-- The metadata dict a fresh `NotebookDocument.__init__` installs. -/
def defaultMetadata : Json :=
  .obj
    [ (str "kernelspec",
        .obj [ (str "display_name", .jstr (str "Python 3")),
               (str "language", .jstr (str "python")),
               (str "name", .jstr (str "python3")) ]),
      (str "language_info",
        .obj [ (str "codemirror_mode",
                 .obj [ (str "name", .jstr (str "ipython")),
                        (str "version", .num 3) ]),
               (str "file_extension", .jstr (str ".py")),
               (str "mimetype", .jstr (str "text/x-python")),
               (str "name", .jstr (str "python")),
               (str "nbconvert_exporter", .jstr (str "python")),
               (str "pygments_lexer", .jstr (str "ipython3")),
               (str "version", .jstr (str "3.8.10")) ]) ]

/-- Fresh document, `NotebookDocument()`. -/
def freshDocument : NotebookDocument :=
  { cells := [], metadata := defaultMetadata }

/-! ## The tag-based parser of `src/notebook_utils.py` (lines 89-115)

`re.finditer(r'<md>(.*?)</md>', content, re.DOTALL)` yields, scanning left to
right, each complete region: the body between the first occurrence of the open
tag and the first occurrence of the close tag after it, continuing after the
close tag.  `tagRegions` is that scan. -/

def tagRegionsGo (openT closeT : Str) : Nat → Str → List Str
  | 0, _ => []
  | fuel + 1, s =>
    match findSub openT s with
    | none => []
    | some i =>
      match findSub closeT (s.drop (i + openT.length)) with
      | none => []
      | some j =>
        (s.drop (i + openT.length)).take j ::
          tagRegionsGo openT closeT fuel
            ((s.drop (i + openT.length)).drop (j + closeT.length))

/-- The region scan.  Each complete region strictly shortens the remaining
text by at least the (nonempty) close tag, so `s.length + 1` recursion steps
always suffice. -/
def tagRegions (openT closeT : Str) (s : Str) : List Str :=
  tagRegionsGo openT closeT (s.length + 1) s

/-- If the close tag never occurs in `s`, the scan yields no region. -/
theorem tagRegionsGo_eq_nil {closeT : Str} (hc : closeT ≠ []) {s : Str}
    (h : hasSub closeT s = false) (openT : Str) (fuel : Nat) :
    tagRegionsGo openT closeT fuel s = [] := by
  cases fuel with
  | zero => rfl
  | succ fuel =>
    rw [tagRegionsGo]
    cases hfo : findSub openT s with
    | none => rfl
    | some i =>
      simp only
      cases hfc : findSub closeT (s.drop (i + openT.length)) with
      | none => rfl
      | some j =>
        exfalso
        have hinf : closeT <:+: s :=
          (findSub_some_isInfix hfc).trans (List.drop_suffix _ s).isInfix
        rw [← hasSub_iff_isInfix hc] at hinf
        simp [h] at hinf

theorem tagRegions_eq_nil {closeT : Str} (hc : closeT ≠ []) {s : Str}
    (h : hasSub closeT s = false) (openT : Str) :
    tagRegions openT closeT s = [] :=
  tagRegionsGo_eq_nil hc h openT (s.length + 1)

/-- Single pass of `re.sub(r'```python\s*\n?|```\s*\n?', '', s)`
(`src/notebook_utils.py` line 112).  Since `\s` includes `\n` and `\s*` is
greedy, each match is the fence marker followed by the maximal whitespace
run. -/
def stripFencesUtilsGo : Nat → Str → Str
  | 0, _ => []
  | _ + 1, [] => []
  | fuel + 1, c :: rest =>
    if (str "```python").isPrefixOf (c :: rest) then
      stripFencesUtilsGo fuel (((c :: rest).drop 9).dropWhile isPySpace)
    else if (str "```").isPrefixOf (c :: rest) then
      stripFencesUtilsGo fuel (((c :: rest).drop 3).dropWhile isPySpace)
    else
      c :: stripFencesUtilsGo fuel rest

/-- Each step consumes at least one character, so `s.length + 1` steps
always suffice. -/
def stripFencesUtils (s : Str) : Str :=
  stripFencesUtilsGo (s.length + 1) s

/-- Lines 93-98 of `src/notebook_utils.py`: `content.strip()`, then cut at
the first `<version_complete>` marker and strip again. -/
def preprocessUtils (content : Str) : Str :=
  match findSub (str "<version_complete>") (pyStrip content) with
  | some i => pyStrip ((pyStrip content).take i)
  | none => pyStrip content

theorem preprocessUtils_isInfix (content : Str) :
    preprocessUtils content <:+: content := by
  unfold preprocessUtils
  cases findSub (str "<version_complete>") (pyStrip content) with
  | none => exact pyStrip_isInfix content
  | some i =>
    have hp := List.take_prefix i (pyStrip content)
    exact ((pyStrip_isInfix _).trans hp.isInfix).trans (pyStrip_isInfix content)

/-- Parser `NotebookDocument.parse_tagged_content` of `src/notebook_utils.py`
(lines 89-115): preprocess, then scan the two patterns in order (`<md>`
first, `<code>` second), stripping fence markers from code bodies. -/
def parse_tagged_content (content : Str) : List NotebookCell :=
  ((tagRegions (str "<md>") (str "</md>") (preprocessUtils content)).map
    (fun body => mkCell (str "markdown") (.pstr (pyStrip body)))) ++
  ((tagRegions (str "<code>") (str "</code>") (preprocessUtils content)).map
    (fun body => mkCell (str "code") (.pstr (stripFencesUtils (pyStrip body)))))





/-! ## The parser of `NeuralNotebook_V1.py` (lines 179-232)

The monolith's `parse_tagged_content` first checks for explicit tags; if
present it removes fence markers with two `re.sub` passes
(`` r'```python\n?' `` then `` r'```\n?' ``), splits on the four tag tokens
keeping the separators (`re.split` with a capture group), and folds the
parts; otherwise it falls back to splitting on complete
`` ```python ... ``` `` fenced blocks. -/

/-- Python `s` if a newline does not lead it, else `s` without that newline
(the `\n?` at the end of the fence patterns). -/
def dropOneNl : Str → Str
  | '\n' :: t => t
  | s => s

/-- Single pass of `re.sub(r'```python\n?', '', s)` (V1 line 186). -/
def subPyGo : Nat → Str → Str
  | 0, _ => []
  | _ + 1, [] => []
  | fuel + 1, c :: rest =>
    if (str "```python").isPrefixOf (c :: rest) then
      subPyGo fuel (dropOneNl ((c :: rest).drop 9))
    else
      c :: subPyGo fuel rest

def subPy (s : Str) : Str := subPyGo (s.length + 1) s

/-- Single pass of `re.sub(r'```\n?', '', s)` (V1 line 187). -/
def subTicksGo : Nat → Str → Str
  | 0, _ => []
  | _ + 1, [] => []
  | fuel + 1, c :: rest =>
    if (str "```").isPrefixOf (c :: rest) then
      subTicksGo fuel (dropOneNl ((c :: rest).drop 3))
    else
      c :: subTicksGo fuel rest

def subTicks (s : Str) : Str := subTicksGo (s.length + 1) s

/-- Single pass of `re.sub(r'```python\n?|```\n?', '', s)` (V1 line 223). -/
def subBothGo : Nat → Str → Str
  | 0, _ => []
  | _ + 1, [] => []
  | fuel + 1, c :: rest =>
    if (str "```python").isPrefixOf (c :: rest) then
      subBothGo fuel (dropOneNl ((c :: rest).drop 9))
    else if (str "```").isPrefixOf (c :: rest) then
      subBothGo fuel (dropOneNl ((c :: rest).drop 3))
    else
      c :: subBothGo fuel rest

def subBoth (s : Str) : Str := subBothGo (s.length + 1) s

/-- Model of `re.split(r'(<(?:md|code)>|</(?:md|code)>)', s)` (V1 line 190): the
alternating list of maximal non-token chunks (possibly empty) and tag
tokens, scanning left to right.  The four tokens are pairwise
prefix-disjoint, so the scan is unambiguous. -/
def splitTagsGo : Nat → Str → List Str
  | 0, _ => [[]]
  | _ + 1, [] => [[]]
  | fuel + 1, c :: rest =>
    if (str "<md>").isPrefixOf (c :: rest) then
      [] :: str "<md>" :: splitTagsGo fuel ((c :: rest).drop 4)
    else if (str "<code>").isPrefixOf (c :: rest) then
      [] :: str "<code>" :: splitTagsGo fuel ((c :: rest).drop 6)
    else if (str "</md>").isPrefixOf (c :: rest) then
      [] :: str "</md>" :: splitTagsGo fuel ((c :: rest).drop 5)
    else if (str "</code>").isPrefixOf (c :: rest) then
      [] :: str "</code>" :: splitTagsGo fuel ((c :: rest).drop 7)
    else
      match splitTagsGo fuel rest with
      | [] => [[c]]
      | p :: ps => (c :: p) :: ps

def splitTags (s : Str) : List Str := splitTagsGo (s.length + 1) s

/-- Flush step `cells.append(NotebookCell(current_type, '\n'.join(current_content)))`
guarded by `if current_type and current_content` (V1 lines 197-198,
202-203 and 210-212). -/
def flushCell (curT : Option Str) (curC : List Str) : List NotebookCell :=
  match curT with
  | some t => if curC ≠ [] then [mkCell t (.pstr (List.intercalate (str "\n") curC))] else []
  | none => []

/-- Fold `for part in parts` of V1 lines 194-212. -/
def v1TagLoop : List Str → Option Str → List Str → List NotebookCell
  | [], curT, curC => flushCell curT curC
  | p :: ps, curT, curC =>
    if pyStrip p ≠ [] then
      if p = str "<md>" then
        flushCell curT curC ++ v1TagLoop ps (some (str "markdown")) []
      else if p = str "<code>" then
        flushCell curT curC ++ v1TagLoop ps (some (str "code")) []
      else if ¬ (str "</").isPrefixOf p then
        match curT with
        | some _ => v1TagLoop ps curT (curC ++ [pyStrip p])
        | none => v1TagLoop ps curT curC
      else v1TagLoop ps curT curC
    else v1TagLoop ps curT curC

/-- Model of `re.split(r'(```python[\s\S]*?```)', s)` (V1 line 217): split on
complete fenced blocks, keeping each block (the close is the first
`` ``` `` after the opening marker).  Each block is at least 12 characters
long, so `s.length + 1` steps suffice. -/
def splitFenceGo : Nat → Str → List Str
  | 0, s => [s]
  | fuel + 1, s =>
    match findSub (str "```python") s with
    | none => [s]
    | some i =>
      match findSub (str "```") (s.drop (i + 9)) with
      | none => [s]
      | some j =>
        s.take i :: ((s.drop i).take (9 + j + 3)) ::
          splitFenceGo fuel (s.drop (i + 9 + j + 3))

def splitFence (s : Str) : List Str := splitFenceGo (s.length + 1) s

/-- Fold `for part in parts` of V1 lines 219-230 (fallback strategy). -/
def fallbackLoop : List Str → List NotebookCell
  | [] => []
  | p :: ps =>
    if pyStrip p ≠ [] then
      if (str "```python").isPrefixOf p then
        (if pyStrip (subBoth p) ≠ [] then
          [mkCell (str "code") (.pstr (pyStrip (subBoth p)))]
         else []) ++ fallbackLoop ps
      else
        mkCell (str "markdown") (.pstr (pyStrip p)) :: fallbackLoop ps
    else fallbackLoop ps

/-- Parser `NotebookDocument.parse_tagged_content` of `NeuralNotebook_V1.py`
(lines 179-232). -/
def parse_tagged_content_v1 (content : Str) : List NotebookCell :=
  if hasSub (str "<md>") content || hasSub (str "<code>") content then
    v1TagLoop (splitTags (subTicks (subPy content))) none []
  else
    fallbackLoop (splitFence content)






/-! ## Document operations

`NotebookDocument.add_cell` / `update_cell` / `delete_cell` are identical in
`src/notebook_utils.py` (lines 36-52) and `NeuralNotebook_V1.py`
(lines 126-142).  Indices are Python `int`s, modelled as `Int`. -/

/-- Operation `add_cell(cell, index=None)`: insert at `index` when
`index is not None and 0 <= index < len(cells)`, else append. -/
def add_cell (doc : NotebookDocument) (cell : NotebookCell)
    (index : Option Int) : NotebookDocument :=
  match index with
  | some i =>
    if 0 ≤ i ∧ i < (doc.cells.length : Int) then
      { doc with cells := doc.cells.insertIdx i.toNat cell }
    else
      { doc with cells := doc.cells ++ [cell] }
  | none => { doc with cells := doc.cells ++ [cell] }

/-- Operation `update_cell(index, content)`: overwrite `source` (wrapping a bare
string) and return `True` when in range, else `False` leaving the document
unchanged. -/
def update_cell (doc : NotebookDocument) (index : Int)
    (content : PyStrOrList) : Bool × NotebookDocument :=
  if 0 ≤ index ∧ index < (doc.cells.length : Int) then
    let f := fun c => { c with source := wrapSource content }
    (true, { doc with cells := doc.cells.modify f index.toNat })
  else
    (false, doc)

/-- Operation `delete_cell(index)`: remove the cell and return `True` when in range,
else `False` leaving the document unchanged. -/
def delete_cell (doc : NotebookDocument) (index : Int) :
    Bool × NotebookDocument :=
  if 0 ≤ index ∧ index < (doc.cells.length : Int) then
    (true, { doc with cells := doc.cells.eraseIdx index.toNat })
  else
    (false, doc)

/-! ## Serialization and the plain-text view -/

/-- Serializer `NotebookCell.to_dict` (`src/notebook_utils.py` lines 11-22): keys in
insertion order; `execution_count` and `outputs` only for code cells. -/
def NotebookCell.to_dict (c : NotebookCell) : Json :=
  .obj ([ (str "cell_type", .jstr c.cell_type),
          (str "metadata", .obj c.metadata),
          (str "source", .arr (c.source.map .jstr)) ] ++
        (if c.cell_type = str "code" then
          [ (str "execution_count", .null), (str "outputs", .arr c.outputs) ]
         else []))

/-- The filter `cell.source and any(s.strip() for s in cell.source)` of
`src/notebook_utils.py` line 56. -/
def keepCell (c : NotebookCell) : Bool :=
  !c.source.isEmpty && c.source.any (fun s => !(pyStrip s).isEmpty)

/-- Serializer `NotebookDocument.to_dict` of `src/notebook_utils.py` (lines 54-60):
only non-empty cells are emitted.  (The monolith's `to_dict`,
`NeuralNotebook_V1.py` lines 144-150, lacks the filter.) -/
def NotebookDocument.to_dict (doc : NotebookDocument) : Json :=
  .obj [ (str "cells", .arr ((doc.cells.filter keepCell).map NotebookCell.to_dict)),
         (str "metadata", doc.metadata),
         (str "nbformat", .num 4),
         (str "nbformat_minor", .num 5) ]

/-- Decimal rendering of `i+1` for the f-string in `to_plain_text`. -/
def natStr (n : Nat) : Str := (Nat.repr n).toList

/-- Entry `f"## Cell {i+1} ({cell.cell_type}):\n{content}\n\n"` entry, where
`content = "".join(cell.source)`. -/
def cellEntry (i : Nat) (c : NotebookCell) : Str :=
  str "## Cell " ++ natStr (i + 1) ++ str " (" ++ c.cell_type ++
    str "):\n" ++ c.source.flatten ++ str "\n\n"

def plainAux : Nat → List NotebookCell → Str
  | _, [] => []
  | i, c :: cs => cellEntry i c ++ plainAux (i + 1) cs

/-- View `NotebookDocument.to_plain_text` (identical in both variants): renders
every cell, numbered from 1, with no filtering. -/
def to_plain_text (doc : NotebookDocument) : Str :=
  str "# Notebook Content:\n\n" ++ plainAux 0 doc.cells

/-! ## Deserialization (`NotebookDocument.from_json`, utils lines 72-87)

The argument is the value `json.loads` produced.  The persisted format (§6)
has string `cell_type`, string-or-list-of-strings `source`, array `outputs`
and object `metadata`; value shapes outside that (which Python would carry
opaquely into the cell, or raise on) are outside this model's domain and map
to `none`, as does a non-object top level (Python raises
`AttributeError`). -/

def strListOf : List Json → Option (List Str)
  | [] => some []
  | .jstr s :: rest => (strListOf rest).map (s :: ·)
  | _ => none

/-- Lookup `cell_data.get("cell_type", "code")`. -/
def cellTypeOf (fields : List (Str × Json)) : Option Str :=
  match Json.lookup fields (str "cell_type") with
  | some (.jstr s) => some s
  | none => some (str "code")
  | some _ => none

/-- Lookup `cell_data.get("source", [])`, wrapped by `NotebookCell.__init__`
(a bare string becomes a one-element list). -/
def sourceOf (fields : List (Str × Json)) : Option (List Str) :=
  match Json.lookup fields (str "source") with
  | some (.jstr s) => some [s]
  | some (.arr xs) => strListOf xs
  | none => some []
  | some _ => none

/-- Lookup `cell_data.get("outputs", [])` (then `outputs or []`, the same for
lists). -/
def outputsOf (fields : List (Str × Json)) : Option (List Json) :=
  match Json.lookup fields (str "outputs") with
  | some (.arr xs) => some xs
  | none => some []
  | some _ => none

/-- Lookup `cell_data.get("metadata", ...)` (empty-dict default). -/
def metadataOf (fields : List (Str × Json)) : Option (List (Str × Json)) :=
  match Json.lookup fields (str "metadata") with
  | some (.obj fs) => some fs
  | none => some []
  | some _ => none

/-- The body of the `for cell_data in data.get("cells", [])` loop:
`NotebookCell(cell_type=..., source=..., outputs=...)` plus the `metadata`
assignment.  Each `get` supplies its default when the key is absent;
`cell_type` defaults to `"code"`. -/
def cellFromJson : Json → Option NotebookCell
  | .obj fields =>
    match cellTypeOf fields, sourceOf fields, outputsOf fields, metadataOf fields with
    | some ct, some src, some outs, some md =>
      some { cell_type := ct, source := src, outputs := outs, metadata := md }
    | _, _, _, _ => none
  | _ => none

def cellsFromJson : List Json → Option (List NotebookCell)
  | [] => some []
  | cj :: rest =>
    match cellFromJson cj with
    | some c => (cellsFromJson rest).map (c :: ·)
    | none => none

/-- Deserializer `NotebookDocument.from_json`: no required-field validation is performed;
`metadata` defaults to the fresh-document metadata and `cells` to the empty
list when absent. -/
def from_json : Json → Option NotebookDocument
  | .obj fields =>
    let md := match Json.lookup fields (str "metadata") with
              | some m => m
              | none => defaultMetadata
    match Json.lookup fields (str "cells") with
    | none => some { cells := [], metadata := md }
    | some (.arr cellsJson) =>
      match cellsFromJson cellsJson with
      | some cs => some { cells := cs, metadata := md }
      | none => none
    | some _ => none
  | _ => none

/-! ## Reconciliation controller (`NotebookApp`, `src/neural_notebook_ui.py`)

Only the state components the claims concern are modelled; the Qt widgets,
message boxes and HTML rendering are UI plumbing outside the core. -/

structure AppState where
  notebook : NotebookDocument
  generating_cell_index : Option Int
  derive_mode_in_progress : Bool
deriving DecidableEq

/-- Handler `NotebookApp.handle_ollama_error` (ui lines 731-743): delete the
placeholder cell if an index is set, clear the index, and clear the
derive-in-progress flag. -/
def handle_ollama_error (st : AppState) : AppState :=
  let st1 :=
    match st.generating_cell_index with
    | some g => { st with notebook := (delete_cell st.notebook g).2,
                          generating_cell_index := none }
    | none => st
  if st1.derive_mode_in_progress then
    { st1 with derive_mode_in_progress := false }
  else st1

/-- Loop `for i, cell in enumerate(new_cells): add_cell(cell, index + i)`
loop of `parse_and_update_cells`. -/
def addAll : NotebookDocument → Int → List NotebookCell → NotebookDocument
  | nb, _, [] => nb
  | nb, pos, c :: cs => addAll (add_cell nb c (some pos)) (pos + 1) cs

/-- Reconciler `NotebookApp.parse_and_update_cells` (ui lines 716-729).  Python reads
`self.generating_cell_index` with no `None` guard (its callers guard);
`none` models the `TypeError` Python would raise in that unguarded case.
The parser is `parse_tagged_content` of `notebook_utils.py`. -/
def parse_and_update_cells (st : AppState) (content : Str) : Option AppState :=
  let new_cells := parse_tagged_content content
  if new_cells ≠ [] then
    match st.generating_cell_index with
    | none => none
    | some g =>
      let nb1 := (delete_cell st.notebook g).2
      let nb2 := addAll nb1 g new_cells
      some { st with notebook := nb2,
                     generating_cell_index :=
                       some (g + (new_cells.length : Int) - 1) }
  else some st

/-! ## Derive-mode structure generation
(`OllamaWorker.generate_notebook_structure`, `src/ollama_agent.py`
lines 101-171)

The network transport and `json.loads` are external collaborators: the
model-response text and a parse oracle `loads` are parameters.  The embedded
function is the post-response logic: brace extraction, validation, and the
fallback structure of lines 146-158.  (The `except` fallback of
lines 160-171 handles transport failure, which is outside this function's
input-output contract.) -/

/-- Python `str.capitalize()`: first character upper-cased, the rest
lower-cased. -/
def pyCapitalize : Str → Str
  | [] => []
  | c :: rest => c.toUpper :: rest.map Char.toLower

/-- Python `str.rfind(c)`: index of the last occurrence. -/
def rfindChar (c : Char) (s : Str) : Option Nat :=
  match findSub [c] s.reverse with
  | some k => some (s.length - 1 - k)
  | none => none

def hasKey (fields : List (Str × Json)) (k : Str) : Bool :=
  (Json.lookup fields k).isSome

/-- The default single-section structure of lines 146-158. -/
def defaultStructure (prompt : Str) : Json :=
  .obj
    [ (str "title", .jstr (pyCapitalize (pyStrip prompt))),
      (str "sections", .arr
        [ .obj
            [ (str "title", .jstr (str "Introduction")),
              (str "type", .jstr (str "section")),
              (str "cells", .arr
                [ .obj [ (str "type", .jstr (str "markdown")),
                         (str "content", .jstr
                           (str "# " ++ prompt ++
                             str "\n\nThis notebook will explore " ++ prompt)) ],
                  .obj [ (str "type", .jstr (str "code")),
                         (str "purpose", .jstr (str "Setup")),
                         (str "content", .jstr (str "# Initial setup and imports")) ] ]) ] ]) ]

/-- Slice logic of lines 133-137 of `src/ollama_agent.py`: `json_start` is
the index of the first open brace (`result.find`), `json_end` one past the
index of the last close brace (`result.rfind`), guarded by
`json_start >= 0 and json_end > json_start`, then the slice
`result[json_start:json_end]`.  `Char.ofNat 123` / `125` are the brace
characters. -/
def extractBraces (result : Str) : Option Str :=
  match findSub [Char.ofNat 123] result, rfindChar (Char.ofNat 125) result with
  | some a, some b =>
    if b + 1 > a then some ((result.drop a).take (b + 1 - a)) else none
  | _, _ => none

/-- Post-response logic of `generate_notebook_structure` on the accumulated text:
`result.strip()`, scan for the first `{` and last `}`, parse the slice
with `loads`, accept only a dict containing `title` and `sections`,
otherwise fall back to `defaultStructure` (lines 131-158 of
`src/ollama_agent.py`). -/
def generate_notebook_structure (loads : Str → Option Json)
    (prompt response : Str) : Json :=
  match extractBraces (pyStrip response) with
  | some sub =>
    match loads sub with
    | some (.obj fields) =>
      if hasKey fields (str "title") && hasKey fields (str "sections") then
        .obj fields
      else defaultStructure prompt
    | some _ => defaultStructure prompt
    | none => defaultStructure prompt
  | none => defaultStructure prompt

/-! ## Claim theorems -/

theorem hasSub_preprocess_false {pat : Str} (hne : pat ≠ []) {s : Str}
    (h : hasSub pat s = false) : hasSub pat (preprocessUtils s) = false := by
  cases hx : hasSub pat (preprocessUtils s) with
  | false => rfl
  | true =>
    exact absurd (hasSub_mono hne (preprocessUtils_isInfix s) hx) (by simp [h])

/-- C1: an `<md>` or `<code>` region whose closing tag has not arrived is
never emitted by `parse_tagged_content` (`src/notebook_utils.py`): with no
`</code>` in the input there are no code cells, with no `</md>` no markdown
cells, and in particular the empty string and a lone opening `<code>` tag
followed by text yield the empty cell list. -/
theorem C1_incomplete_regions_not_emitted :
    (∀ s : Str, hasSub (str "</md>") s = false → hasSub (str "</code>") s = false →
      parse_tagged_content s = []) ∧
    (∀ s : Str, hasSub (str "</code>") s = false →
      (parse_tagged_content s).filter (fun c => c.cell_type = str "code") = []) ∧
    (∀ s : Str, hasSub (str "</md>") s = false →
      (parse_tagged_content s).filter (fun c => c.cell_type = str "markdown") = []) ∧
    parse_tagged_content (str "") = [] ∧
    parse_tagged_content (str "<code>\nprint(1)") = [] := by
  refine ⟨?_, ?_, ?_, rfl, rfl⟩
  · intro s h1 h2
    unfold parse_tagged_content
    rw [tagRegions_eq_nil (by decide) (hasSub_preprocess_false (by decide) h1),
        tagRegions_eq_nil (by decide) (hasSub_preprocess_false (by decide) h2)]
    rfl
  · intro s h2
    unfold parse_tagged_content
    rw [tagRegions_eq_nil (by decide) (hasSub_preprocess_false (by decide) h2)]
    rw [List.map_nil, List.append_nil, List.filter_eq_nil_iff]
    intro c hc
    rcases List.mem_map.mp hc with ⟨body, _, rfl⟩
    simp [mkCell, str]
  · intro s h1
    unfold parse_tagged_content
    rw [tagRegions_eq_nil (by decide) (hasSub_preprocess_false (by decide) h1)]
    rw [List.map_nil, List.nil_append, List.filter_eq_nil_iff]
    intro c hc
    rcases List.mem_map.mp hc with ⟨body, _, rfl⟩
    simp [mkCell, str]

theorem C1_incomplete_regions_not_emitted_witness :
    parse_tagged_content (str "intro <code> x = 1") = [] ∧
    (parse_tagged_content (str "<md>a</md><code>b")).filter
      (fun c => c.cell_type = str "code") = [] ∧
    (parse_tagged_content (str "<code>c</code><md>d")).filter
      (fun c => c.cell_type = str "markdown") = [] :=
  ⟨C1_incomplete_regions_not_emitted.1 _ rfl rfl,
   C1_incomplete_regions_not_emitted.2.1 _ rfl,
   C1_incomplete_regions_not_emitted.2.2.1 _ rfl⟩

/-- C2 counterexample: on the claimed input the modular parser
(`src/notebook_utils.py`) does NOT return `Code("print(1)")` as its second
cell — the newline before the closing fence survives the fence-marker
substitution (which runs after the `.strip()`). -/
theorem C2_counterexample :
    parse_tagged_content
        (str "<md>\n# Title\n</md>\n\n<code>\n```python\nprint(1)\n```\n</code>") ≠
      [mkCell (str "markdown") (.pstr (str "# Title")),
       mkCell (str "code") (.pstr (str "print(1)"))] := by decide

/-- C2 amended: on the input
`"<md>\n# Title\n</md>\n\n<code>\n```python\nprint(1)\n```\n</code>"` the
modular parser returns exactly `Markdown("# Title")` then
`Code("print(1)\n")` (fence markers stripped, the newline preceding the
closing fence retained), while the legacy monolith parser
(`NeuralNotebook_V1.py`) returns exactly `Markdown("# Title")` then
`Code("print(1)")` as the spec stated. -/
theorem C2_two_cells_amended :
    parse_tagged_content
        (str "<md>\n# Title\n</md>\n\n<code>\n```python\nprint(1)\n```\n</code>") =
      [mkCell (str "markdown") (.pstr (str "# Title")),
       mkCell (str "code") (.pstr (str "print(1)\n"))] ∧
    parse_tagged_content_v1
        (str "<md>\n# Title\n</md>\n\n<code>\n```python\nprint(1)\n```\n</code>") =
      [mkCell (str "markdown") (.pstr (str "# Title")),
       mkCell (str "code") (.pstr (str "print(1)"))] :=
  ⟨rfl, rfl⟩

/-- C5: the untagged input `"Some text\n```python\nx=1\n```\nMore text"`
contains neither `<md>` nor `<code>`, so the fallback code-fence strategy of
`NeuralNotebook_V1.py` (lines 214-230) is selected, and it returns exactly
`Markdown("Some text")`, `Code("x=1")`, `Markdown("More text")`. -/
theorem C5_fallback_three_cells :
    hasSub (str "<md>") (str "Some text\n```python\nx=1\n```\nMore text") = false ∧
    hasSub (str "<code>") (str "Some text\n```python\nx=1\n```\nMore text") = false ∧
    parse_tagged_content_v1 (str "Some text\n```python\nx=1\n```\nMore text") =
      [mkCell (str "markdown") (.pstr (str "Some text")),
       mkCell (str "code") (.pstr (str "x=1")),
       mkCell (str "markdown") (.pstr (str "More text"))] :=
  ⟨rfl, rfl, rfl⟩

/-- C8: `update_cell` and `delete_cell` (identical in both variants) are
no-ops returning `False` for every index outside `0 <= index < len(cells)`,
and return `True` for every in-range index. -/
theorem C8_out_of_range_noop :
    ∀ (doc : NotebookDocument) (index : Int) (content : PyStrOrList),
      (¬ (0 ≤ index ∧ index < (doc.cells.length : Int)) →
        update_cell doc index content = (false, doc) ∧
        delete_cell doc index = (false, doc)) ∧
      ((0 ≤ index ∧ index < (doc.cells.length : Int)) →
        (update_cell doc index content).1 = true ∧
        (delete_cell doc index).1 = true) := by
  intro doc index content
  constructor
  · intro h
    simp only [update_cell, delete_cell, if_neg h]
    exact ⟨trivial, trivial⟩
  · intro h
    simp only [update_cell, delete_cell, if_pos h]
    exact ⟨trivial, trivial⟩

def docW : NotebookDocument :=
  { cells := [mkCell (str "code") (.pstr (str "x"))], metadata := defaultMetadata }

theorem C8_out_of_range_noop_witness :
    (update_cell docW 3 (.pstr (str "y")) = (false, docW) ∧
      delete_cell docW 3 = (false, docW)) ∧
    (update_cell docW (-1) (.pstr (str "y")) = (false, docW) ∧
      delete_cell docW (-1) = (false, docW)) ∧
    ((update_cell docW 0 (.pstr (str "y"))).1 = true ∧
      (delete_cell docW 0).1 = true) :=
  ⟨(C8_out_of_range_noop docW 3 (.pstr (str "y"))).1 (by decide),
   (C8_out_of_range_noop docW (-1) (.pstr (str "y"))).1 (by decide),
   (C8_out_of_range_noop docW 0 (.pstr (str "y"))).2 (by decide)⟩

theorem keepCell_eq_true_iff (c : NotebookCell) :
    keepCell c = true ↔ c.source ≠ [] ∧ ∃ s ∈ c.source, pyStrip s ≠ [] := by
  simp [keepCell, List.isEmpty_iff, List.any_eq_true]

theorem keepCell_iff_flatten (c : NotebookCell) :
    keepCell c = true ↔ pyStrip c.source.flatten ≠ [] := by
  rw [keepCell_eq_true_iff]
  constructor
  · rintro ⟨-, s, hs, h2⟩
    intro hflat
    rw [pyStrip_eq_nil_iff] at hflat
    apply h2
    rw [pyStrip_eq_nil_iff]
    intro x hx
    exact hflat x (List.mem_flatten.mpr ⟨s, hs, hx⟩)
  · intro h
    have hx : ¬ ∀ x ∈ c.source.flatten, isPySpace x :=
      fun hall => h ((pyStrip_eq_nil_iff _).mpr hall)
    push_neg at hx
    rcases hx with ⟨x, hxm, hxns⟩
    rcases List.mem_flatten.mp hxm with ⟨s, hsm, hxs⟩
    refine ⟨List.ne_nil_of_mem hsm, s, hsm, ?_⟩
    intro hps
    exact hxns ((pyStrip_eq_nil_iff s).mp hps x hxs)

theorem keepCell_eq (c : NotebookCell) :
    keepCell c = !(pyStrip c.source.flatten).isEmpty := by
  cases hk : keepCell c with
  | false =>
    cases hp : (pyStrip c.source.flatten).isEmpty with
    | false =>
      exfalso
      have : pyStrip c.source.flatten ≠ [] := by
        intro he
        rw [he] at hp
        simp at hp
      rw [← keepCell_iff_flatten] at this
      simp [hk] at this
    | true => rfl
  | true =>
    cases hp : (pyStrip c.source.flatten).isEmpty with
    | false => rfl
    | true =>
      exfalso
      exact (keepCell_iff_flatten c).mp hk (List.isEmpty_iff.mp hp)

theorem plainAux_entry : ∀ (cs : List NotebookCell) (i j : Nat) (c : NotebookCell),
    cs[j]? = some c → cellEntry (i + j) c <:+: plainAux i cs := by
  intro cs
  induction cs with
  | nil =>
    intro i j c h
    simp at h
  | cons c0 rest ih =>
    intro i j c h
    cases j with
    | zero =>
      simp only [List.getElem?_cons_zero, Option.some.injEq] at h
      subst h
      rw [Nat.add_zero]
      simp only [plainAux]
      exact (List.prefix_append _ _).isInfix
    | succ j =>
      have hrec := ih (i + 1) j c (by simpa using h)
      rw [show i + (j + 1) = (i + 1) + j by omega]
      simp only [plainAux]
      exact hrec.trans (List.suffix_append _ _).isInfix

theorem to_plain_text_entry (doc : NotebookDocument) (j : Nat) (c : NotebookCell)
    (h : doc.cells[j]? = some c) : cellEntry j c <:+: to_plain_text doc := by
  have := plainAux_entry doc.cells 0 j c h
  rw [Nat.zero_add] at this
  exact this.trans (List.suffix_append _ _).isInfix

/-- The divergence document of C4: one empty-source cell, one non-empty. -/
def divergeDoc : NotebookDocument :=
  { cells := [mkCell (str "code") (.pstr (str "")),
              mkCell (str "code") (.pstr (str "print(1)"))],
    metadata := defaultMetadata }

/-- C4: `to_dict` (serialize, `src/notebook_utils.py`) emits exactly the
cells whose concatenated source is not empty/all-whitespace, while
`to_plain_text` (toContextText) renders every cell — including
empty-source ones — as a numbered `## Cell i (type):` entry; on a document
with one empty cell and one non-empty cell the two views diverge. -/
theorem C4_serializer_filters_plain_text_does_not :
    (∀ doc : NotebookDocument,
      NotebookDocument.to_dict doc =
        .obj [ (str "cells", .arr ((doc.cells.filter
                  (fun c => !(pyStrip c.source.flatten).isEmpty)).map
                    NotebookCell.to_dict)),
               (str "metadata", doc.metadata),
               (str "nbformat", .num 4),
               (str "nbformat_minor", .num 5) ]) ∧
    (∀ (doc : NotebookDocument) (j : Nat) (c : NotebookCell),
      doc.cells[j]? = some c → cellEntry j c <:+: to_plain_text doc) ∧
    NotebookDocument.to_dict divergeDoc =
      .obj [ (str "cells",
               .arr [(mkCell (str "code") (.pstr (str "print(1)"))).to_dict]),
             (str "metadata", defaultMetadata),
             (str "nbformat", .num 4),
             (str "nbformat_minor", .num 5) ] ∧
    to_plain_text divergeDoc =
      str "# Notebook Content:\n\n## Cell 1 (code):\n\n\n## Cell 2 (code):\nprint(1)\n\n" := by
  refine ⟨?_, to_plain_text_entry, rfl, rfl⟩
  intro doc
  unfold NotebookDocument.to_dict
  rw [List.filter_congr (fun x _ => keepCell_eq x)]

theorem C4_serializer_filters_plain_text_does_not_witness :
    NotebookDocument.to_dict divergeDoc =
      .obj [ (str "cells", .arr ((divergeDoc.cells.filter
                (fun c => !(pyStrip c.source.flatten).isEmpty)).map
                  NotebookCell.to_dict)),
             (str "metadata", divergeDoc.metadata),
             (str "nbformat", .num 4),
             (str "nbformat_minor", .num 5) ] ∧
    cellEntry 0 (mkCell (str "code") (.pstr (str ""))) <:+: to_plain_text divergeDoc ∧
    cellEntry 1 (mkCell (str "code") (.pstr (str "print(1)"))) <:+: to_plain_text divergeDoc :=
  ⟨C4_serializer_filters_plain_text_does_not.1 divergeDoc,
   C4_serializer_filters_plain_text_does_not.2.1 divergeDoc 0 _ rfl,
   C4_serializer_filters_plain_text_does_not.2.1 divergeDoc 1 _ rfl⟩

theorem cellFromJson_obj (fields : List (Str × Json)) :
    cellFromJson (.obj fields) =
      match cellTypeOf fields, sourceOf fields, outputsOf fields, metadataOf fields with
      | some ct, some src, some outs, some md =>
        some { cell_type := ct, source := src, outputs := outs, metadata := md }
      | _, _, _, _ => none := rfl

/-- C3 counterexample: `from_json` performs no required-field validation.
On the empty JSON object — which lacks all of `cells`, `metadata`,
`nbformat`, `nbformat_minor` — it succeeds with an empty document rather
than failing. -/
theorem C3_counterexample :
    from_json (.obj []) = some { cells := [], metadata := defaultMetadata } := rfl

/-- C3 amended: `from_json` never rejects a document object for missing
top-level fields — absent `cells` defaults to no cells and absent
`metadata` to the fresh-document metadata — and a cell object lacking
`cell_type` is assigned cell type `"code"`. -/
theorem C3_defaults_amended :
    (from_json (.obj []) = some { cells := [], metadata := defaultMetadata }) ∧
    (∀ (fields : List (Str × Json)) (c : NotebookCell),
      Json.lookup fields (str "cell_type") = none →
      cellFromJson (.obj fields) = some c → c.cell_type = str "code") := by
  refine ⟨rfl, ?_⟩
  intro fields c hct hcell
  have h1 : cellTypeOf fields = some (str "code") := by
    unfold cellTypeOf
    rw [hct]
  rw [cellFromJson_obj] at hcell
  rw [h1] at hcell
  rcases hs : sourceOf fields with _ | src
  · rw [hs] at hcell
    exact Option.noConfusion hcell
  · rw [hs] at hcell
    rcases ho : outputsOf fields with _ | outs
    · rw [ho] at hcell
      exact Option.noConfusion hcell
    · rw [ho] at hcell
      rcases hm : metadataOf fields with _ | md
      · rw [hm] at hcell
        exact Option.noConfusion hcell
      · rw [hm] at hcell
        injection hcell with h2
        subst h2
        rfl

theorem C3_defaults_amended_witness :
    from_json (.obj []) = some { cells := [], metadata := defaultMetadata } ∧
    ∃ c, cellFromJson (.obj [(str "source", .jstr (str "x = 1"))]) = some c ∧
      c.cell_type = str "code" :=
  ⟨C3_defaults_amended.1,
   ⟨⟨str "code", [str "x = 1"], [], []⟩, rfl,
    C3_defaults_amended.2 [(str "source", .jstr (str "x = 1"))] _ rfl rfl⟩⟩

/-- The C9 counterexample input: a persisted document whose markdown cell
carries a non-empty `outputs` array. -/
def mdOutputsJson : Json :=
  .obj [ (str "cells", .arr
           [ .obj [ (str "cell_type", .jstr (str "markdown")),
                    (str "outputs", .arr [.num 1]) ] ]) ]

/-- C9 counterexample: `from_json` copies an `outputs` field verbatim even
for markdown cells, so a deserialized markdown cell can have non-empty
`outputs` — the invariant does not hold for every cell `from_json`
constructs. -/
theorem C9_counterexample :
    ∃ d, from_json mdOutputsJson = some d ∧
      ∃ c ∈ d.cells, c.cell_type = str "markdown" ∧ c.outputs ≠ [] := by
  refine ⟨{ cells := [⟨str "markdown", [], [.num 1], []⟩],
            metadata := defaultMetadata }, rfl,
          ⟨str "markdown", [], [.num 1], []⟩, ?_, rfl, by simp⟩
  simp

/-- C9 amended: `to_dict` never emits `outputs` or `execution_count` for a
non-code cell; every cell the tag parser produces has empty `outputs`; and
`from_json` yields empty `outputs` for every cell object with no `outputs`
field (as §6 prescribes for markdown cells) — but not, per the
counterexample, for arbitrary input. -/
theorem C9_markdown_outputs_amended :
    (∀ c : NotebookCell, c.cell_type ≠ str "code" →
      NotebookCell.to_dict c =
        .obj [ (str "cell_type", .jstr c.cell_type),
               (str "metadata", .obj c.metadata),
               (str "source", .arr (c.source.map .jstr)) ]) ∧
    (∀ s : Str, ∀ c ∈ parse_tagged_content s, c.outputs = []) ∧
    (∀ (fields : List (Str × Json)) (c : NotebookCell),
      Json.lookup fields (str "outputs") = none →
      cellFromJson (.obj fields) = some c → c.outputs = []) := by
  refine ⟨?_, ?_, ?_⟩
  · intro c h
    unfold NotebookCell.to_dict
    rw [if_neg h, List.append_nil]
  · intro s c hc
    unfold parse_tagged_content at hc
    rcases List.mem_append.mp hc with hc | hc <;>
      rcases List.mem_map.mp hc with ⟨body, _, rfl⟩ <;> rfl
  · intro fields c ho hcell
    have h1 : outputsOf fields = some [] := by
      unfold outputsOf
      rw [ho]
    rw [cellFromJson_obj] at hcell
    rw [h1] at hcell
    rcases hct : cellTypeOf fields with _ | ct
    · rw [hct] at hcell
      exact Option.noConfusion hcell
    · rw [hct] at hcell
      rcases hs : sourceOf fields with _ | src
      · rw [hs] at hcell
        exact Option.noConfusion hcell
      · rw [hs] at hcell
        rcases hm : metadataOf fields with _ | md
        · rw [hm] at hcell
          exact Option.noConfusion hcell
        · rw [hm] at hcell
          injection hcell with h2
          subst h2
          rfl

theorem C9_markdown_outputs_amended_witness :
    NotebookCell.to_dict (mkCell (str "markdown") (.pstr (str "hi"))) =
      .obj [ (str "cell_type", .jstr (str "markdown")),
             (str "metadata", .obj []),
             (str "source", .arr [.jstr (str "hi")]) ] ∧
    (mkCell (str "markdown") (.pstr (str "a"))).outputs = [] ∧
    ∃ c, cellFromJson (.obj [(str "cell_type", .jstr (str "markdown"))]) = some c ∧
      c.outputs = [] :=
  ⟨C9_markdown_outputs_amended.1 _ (by decide),
   C9_markdown_outputs_amended.2.1 (str "<md>a</md>")
     (mkCell (str "markdown") (.pstr (str "a"))) (by decide),
   ⟨⟨str "markdown", [], [], []⟩, rfl,
    C9_markdown_outputs_amended.2.2 [(str "cell_type", .jstr (str "markdown"))] _ rfl rfl⟩⟩

/-- C6: when a session errors while a placeholder index is set,
`handle_ollama_error` deletes the cell at that index (for any in-range
index), clears the index to `None`, and clears the derive-in-progress
flag. -/
theorem C6_error_clears_placeholder :
    ∀ (st : AppState) (g : Int), st.generating_cell_index = some g →
      (handle_ollama_error st).generating_cell_index = none ∧
      (handle_ollama_error st).derive_mode_in_progress = false ∧
      (0 ≤ g → g < (st.notebook.cells.length : Int) →
        (handle_ollama_error st).notebook.cells =
          st.notebook.cells.eraseIdx g.toNat) ∧
      (handle_ollama_error st).notebook.metadata = st.notebook.metadata := by
  intro st g hg
  have hmain : handle_ollama_error st =
      { notebook := (delete_cell st.notebook g).2,
        generating_cell_index := none,
        derive_mode_in_progress := false } := by
    unfold handle_ollama_error
    rw [hg]
    cases hd : st.derive_mode_in_progress
    · simp [hd]
    · simp [hd]
  rw [hmain]
  refine ⟨rfl, rfl, ?_, ?_⟩
  · intro h0 hl
    simp only [delete_cell, if_pos (And.intro h0 hl)]
  · by_cases hin : 0 ≤ g ∧ g < (st.notebook.cells.length : Int)
    · simp only [delete_cell, if_pos hin]
    · simp only [delete_cell, if_neg hin]

def stW : AppState :=
  { notebook := { cells := [mkCell (str "code") (.pstr (str "a")),
                            mkCell (str "markdown") (.pstr (str "Generating..."))],
                  metadata := defaultMetadata },
    generating_cell_index := some 1,
    derive_mode_in_progress := true }

theorem C6_error_clears_placeholder_witness :
    (handle_ollama_error stW).generating_cell_index = none ∧
    (handle_ollama_error stW).derive_mode_in_progress = false ∧
    (handle_ollama_error stW).notebook.cells =
      stW.notebook.cells.eraseIdx (1 : Int).toNat :=
  ⟨(C6_error_clears_placeholder stW 1 rfl).1,
   (C6_error_clears_placeholder stW 1 rfl).2.1,
   (C6_error_clears_placeholder stW 1 rfl).2.2.1 (by decide) (by decide)⟩

theorem insertIdx_eq_take_drop {α : Type} :
    ∀ (n : Nat) (l : List α) (a : α), n ≤ l.length →
      l.insertIdx n a = l.take n ++ a :: l.drop n
  | 0, l, a, _ => by simp
  | n + 1, [], a, h => by simp at h
  | n + 1, x :: xs, a, h => by
    simp only [List.insertIdx_succ_cons, List.take_succ_cons, List.drop_succ_cons]
    rw [insertIdx_eq_take_drop n xs a (by simpa using h)]
    rfl

theorem add_cell_some (nb : NotebookDocument) (c : NotebookCell) (i : Int) :
    add_cell nb c (some i) =
      if 0 ≤ i ∧ i < (nb.cells.length : Int) then
        { nb with cells := nb.cells.insertIdx i.toNat c }
      else { nb with cells := nb.cells ++ [c] } := rfl

theorem add_cell_at (nb : NotebookDocument) (c : NotebookCell) (pos : Nat)
    (h : pos ≤ nb.cells.length) :
    add_cell nb c (some (pos : Int)) =
      { nb with cells := nb.cells.take pos ++ c :: nb.cells.drop pos } := by
  rw [add_cell_some]
  rcases Nat.lt_or_ge pos nb.cells.length with hlt | hge
  · rw [if_pos (And.intro (Int.ofNat_nonneg pos) (by exact_mod_cast hlt))]
    rw [Int.toNat_natCast, insertIdx_eq_take_drop pos _ c h]
  · have heq : pos = nb.cells.length := Nat.le_antisymm h hge
    rw [if_neg (by omega)]
    subst heq
    rw [List.take_length, List.drop_length]

theorem addAll_spec :
    ∀ (cs : List NotebookCell) (nb : NotebookDocument) (pos : Nat),
      pos ≤ nb.cells.length →
      addAll nb (pos : Int) cs =
        { nb with cells := nb.cells.take pos ++ cs ++ nb.cells.drop pos } := by
  intro cs
  induction cs with
  | nil =>
    intro nb pos h
    have hc : nb.cells.take pos ++ [] ++ nb.cells.drop pos = nb.cells := by
      simp [List.take_append_drop]
    simp only [addAll, hc]
  | cons c cs ih =>
    intro nb pos h
    have hl : (nb.cells.take pos).length = pos := List.length_take_of_le h
    simp only [addAll]
    rw [add_cell_at nb c pos h]
    have hlen2 : pos + 1 ≤ (nb.cells.take pos ++ c :: nb.cells.drop pos).length := by
      simp only [List.length_append, List.length_cons, hl]
      omega
    rw [show (pos : Int) + 1 = ((pos + 1 : Nat) : Int) by push_cast; ring]
    rw [ih _ (pos + 1) hlen2]
    have htake : (nb.cells.take pos ++ c :: nb.cells.drop pos).take (pos + 1) =
        nb.cells.take pos ++ [c] := by
      rw [show pos + 1 = (nb.cells.take pos).length + 1 by rw [hl]]
      rw [List.take_append]
      rfl
    have hdrop : (nb.cells.take pos ++ c :: nb.cells.drop pos).drop (pos + 1) =
        nb.cells.drop pos := by
      rw [show pos + 1 = (nb.cells.take pos).length + 1 by rw [hl]]
      rw [List.drop_append]
      rfl
    rw [htake, hdrop]
    simp [List.append_assoc]

theorem parse_and_update_cells_some (st : AppState) (content : Str) (g : Int)
    (hg : st.generating_cell_index = some g) :
    parse_and_update_cells st content =
      if parse_tagged_content content ≠ [] then
        some { st with
          notebook :=
            addAll (delete_cell st.notebook g).2 g (parse_tagged_content content),
          generating_cell_index :=
            some (g + ((parse_tagged_content content).length : Int) - 1) }
      else some st := by
  unfold parse_and_update_cells
  rw [hg]

/-- C10: with the placeholder index `g` in range, `parse_and_update_cells`
replaces exactly the cell at `g` by the parsed cells in parse order — cells
below `g` unchanged, cells after it shifted by `n-1` — the count grows by
`n-1`, and the tracked index advances to `g+n-1`, the last inserted cell;
when the parser yields nothing the state is unchanged. -/
theorem C10_placeholder_replacement :
    ∀ (st : AppState) (content : Str) (g : Int),
      st.generating_cell_index = some g → 0 ≤ g →
      g < (st.notebook.cells.length : Int) →
      (parse_tagged_content content = [] →
        parse_and_update_cells st content = some st) ∧
      (parse_tagged_content content ≠ [] →
        ∃ st', parse_and_update_cells st content = some st' ∧
          st'.notebook.cells =
            st.notebook.cells.take g.toNat ++ parse_tagged_content content ++
              st.notebook.cells.drop (g.toNat + 1) ∧
          st'.notebook.cells.length + 1 =
            st.notebook.cells.length + (parse_tagged_content content).length ∧
          st'.generating_cell_index =
            some (g + ((parse_tagged_content content).length : Int) - 1) ∧
          st'.notebook.cells[g.toNat + (parse_tagged_content content).length - 1]? =
            (parse_tagged_content content).getLast? ∧
          st'.derive_mode_in_progress = st.derive_mode_in_progress ∧
          st'.notebook.metadata = st.notebook.metadata) := by
  intro st content g hg h0 hlen
  have hgnat : g.toNat < st.notebook.cells.length := by omega
  constructor
  · intro hnil
    unfold parse_and_update_cells
    rw [hnil]
    simp
  · intro hne
    rw [parse_and_update_cells_some st content g hg, if_pos hne]
    have hdel : (delete_cell st.notebook g).2 =
        { st.notebook with cells := st.notebook.cells.eraseIdx g.toNat } := by
      unfold delete_cell
      rw [if_pos (And.intro h0 hlen)]
    rw [hdel]
    have herase : st.notebook.cells.eraseIdx g.toNat =
        st.notebook.cells.take g.toNat ++ st.notebook.cells.drop (g.toNat + 1) :=
      List.eraseIdx_eq_take_drop_succ _ _
    have hle : g.toNat ≤ (st.notebook.cells.eraseIdx g.toNat).length := by
      rw [List.length_eraseIdx_of_lt hgnat]
      omega
    have haddall :
        addAll { st.notebook with cells := st.notebook.cells.eraseIdx g.toNat } g
            (parse_tagged_content content) =
          { st.notebook with cells :=
              (st.notebook.cells.eraseIdx g.toNat).take g.toNat ++
                parse_tagged_content content ++
                (st.notebook.cells.eraseIdx g.toNat).drop g.toNat } := by
      conv_lhs => rw [show g = ((g.toNat : Nat) : Int) by omega]
      exact addAll_spec (parse_tagged_content content) _ g.toNat hle
    rw [haddall]
    have take_at : ∀ (A B : List NotebookCell) (n : Nat),
        A.length = n → (A ++ B).take n = A := by
      intro A B n h
      subst h
      exact List.take_left A B
    have drop_at : ∀ (A B : List NotebookCell) (n : Nat),
        A.length = n → (A ++ B).drop n = B := by
      intro A B n h
      subst h
      exact List.drop_left A B
    have htl : (st.notebook.cells.eraseIdx g.toNat).take g.toNat =
        st.notebook.cells.take g.toNat := by
      rw [herase]
      exact take_at _ _ _ (List.length_take_of_le (Nat.le_of_lt hgnat))
    have hdl : (st.notebook.cells.eraseIdx g.toNat).drop g.toNat =
        st.notebook.cells.drop (g.toNat + 1) := by
      rw [herase]
      exact drop_at _ _ _ (List.length_take_of_le (Nat.le_of_lt hgnat))
    refine ⟨_, rfl, ?_, ?_, ?_, ?_, rfl, rfl⟩
    · simp only [htl, hdl]
    · simp only [htl, hdl, List.length_append]
      have h1 : (st.notebook.cells.take g.toNat).length = g.toNat :=
        List.length_take_of_le (Nat.le_of_lt hgnat)
      have h2 : (st.notebook.cells.drop (g.toNat + 1)).length =
          st.notebook.cells.length - (g.toNat + 1) := List.length_drop _ _
      rw [h1, h2]
      omega
    · rfl
    · simp only [htl, hdl]
      have h1 : (st.notebook.cells.take g.toNat).length = g.toNat :=
        List.length_take_of_le (Nat.le_of_lt hgnat)
      have hn1 : 1 ≤ (parse_tagged_content content).length :=
        List.length_pos.mpr hne
      rw [List.append_assoc]
      rw [List.getElem?_append_right (by omega)]
      rw [h1]
      rw [show g.toNat + (parse_tagged_content content).length - 1 - g.toNat =
        (parse_tagged_content content).length - 1 by omega]
      rw [List.getElem?_append_left (by omega), List.getLast?_eq_getElem?]

def stW10 : AppState :=
  { notebook := { cells := [mkCell (str "markdown") (.pstr (str "title")),
                            mkCell (str "code") (.pstr (str "Generating..."))],
                  metadata := defaultMetadata },
    generating_cell_index := some 1,
    derive_mode_in_progress := false }

theorem C10_placeholder_replacement_witness :
    parse_and_update_cells stW10 (str "xyz") = some stW10 ∧
    ∃ st', parse_and_update_cells stW10 (str "<md>a</md><md>b</md>") = some st' ∧
      st'.notebook.cells =
        [mkCell (str "markdown") (.pstr (str "title")),
         mkCell (str "markdown") (.pstr (str "a")),
         mkCell (str "markdown") (.pstr (str "b"))] ∧
      st'.generating_cell_index = some 2 := by
  constructor
  · exact (C10_placeholder_replacement stW10 (str "xyz") 1 rfl (by decide)
      (by decide)).1 rfl
  · rcases (C10_placeholder_replacement stW10 (str "<md>a</md><md>b</md>") 1 rfl
      (by decide) (by decide)).2 (by decide) with ⟨st', h1, h2, h3, h4, h5, h6, h7⟩
    refine ⟨st', h1, ?_, ?_⟩
    · rw [h2]
      decide
    · rw [h4]
      decide

theorem findSub_some_drop {pat s : Str} {i : Nat} (h : findSub pat s = some i) :
    pat.isPrefixOf (s.drop i) = true := by
  induction s generalizing i with
  | nil =>
    rw [findSub_nil] at h
    split at h
    · rename_i hp
      cases h
      simp [hp]
    · simp at h
  | cons c rest ih =>
    rw [findSub_cons] at h
    split at h
    · rename_i hp
      cases h
      simpa using hp
    · rcases Option.map_eq_some'.mp h with ⟨j, hj, rfl⟩
      simpa using ih hj

theorem findSub_min {pat s : Str} {i : Nat} (h : findSub pat s = some i) :
    ∀ k, k < i → pat.isPrefixOf (s.drop k) = false := by
  induction s generalizing i with
  | nil =>
    rw [findSub_nil] at h
    split at h
    · cases h
      intro k hk
      omega
    · simp at h
  | cons c rest ih =>
    rw [findSub_cons] at h
    split at h
    · cases h
      intro k hk
      omega
    · rename_i hp
      rcases Option.map_eq_some'.mp h with ⟨j, hj, rfl⟩
      intro k hk
      cases k with
      | zero => exact Bool.eq_false_iff.mpr hp
      | succ m => simpa using ih hj m (by omega)

theorem singleton_isPrefixOf_iff {c : Char} {t : Str} :
    [c].isPrefixOf t = true ↔ t.head? = some c := by
  cases t with
  | nil => simp [List.isPrefixOf]
  | cons x xs =>
    simp only [List.isPrefixOf, Bool.and_eq_true, beq_iff_eq, List.head?_cons,
      Option.some.injEq]
    constructor
    · rintro ⟨h, -⟩
      exact h.symm
    · intro h
      exact ⟨h.symm, trivial⟩

theorem findChar_not_mem_take {c : Char} {s : Str} {i : Nat}
    (h : findSub [c] s = some i) : c ∉ s.take i := by
  intro hc
  rcases List.mem_iff_getElem.mp hc with ⟨k, hk, hg⟩
  have hkt : k < i ∧ k < s.length := by
    simpa [List.length_take, Nat.lt_min] using hk
  have hg2 : s[k]? = some c := by
    have h1 : (s.take i)[k]? = some c := by
      rw [List.getElem?_eq_getElem hk, hg]
    rw [List.getElem?_take, if_pos hkt.1] at h1
    exact h1
  have hpre : [c].isPrefixOf (s.drop k) = true := by
    rw [singleton_isPrefixOf_iff, List.head?_drop]
    exact hg2
  rw [findSub_min h k hkt.1] at hpre
  exact Bool.noConfusion hpre

theorem rfindChar_spec {c : Char} {s : Str} {b : Nat} (h : rfindChar c s = some b) :
    b < s.length ∧ s[b]? = some c ∧ c ∉ s.drop (b + 1) := by
  unfold rfindChar at h
  rcases hk : findSub [c] s.reverse with _ | k
  · rw [hk] at h
    exact Option.noConfusion h
  · rw [hk] at h
    injection h with hb
    have hbound := findSub_some_bound hk
    rw [List.length_reverse] at hbound
    have hklen : k < s.length := by simp at hbound; omega
    subst hb
    refine ⟨by omega, ?_, ?_⟩
    · have hpre := findSub_some_drop hk
      rw [singleton_isPrefixOf_iff, List.head?_drop] at hpre
      rw [List.getElem?_reverse hklen] at hpre
      exact hpre
    · intro hmem
      have hrev : c ∈ (s.drop (s.length - 1 - k + 1)).reverse :=
        List.mem_reverse.mpr hmem
      rw [List.reverse_drop] at hrev
      have hkk : s.length - (s.length - 1 - k + 1) = k := by omega
      rw [hkk] at hrev
      exact findChar_not_mem_take hk hrev

theorem generate_notebook_structure_some (loads : Str → Option Json)
    (prompt response sub : Str)
    (hex : extractBraces (pyStrip response) = some sub) :
    generate_notebook_structure loads prompt response =
      match loads sub with
      | some (.obj fields) =>
        if hasKey fields (str "title") && hasKey fields (str "sections") then
          Json.obj fields
        else defaultStructure prompt
      | some _ => defaultStructure prompt
      | none => defaultStructure prompt := by
  unfold generate_notebook_structure
  rw [hex]

theorem generate_notebook_structure_none (loads : Str → Option Json)
    (prompt response : Str)
    (hex : extractBraces (pyStrip response) = none) :
    generate_notebook_structure loads prompt response = defaultStructure prompt := by
  unfold generate_notebook_structure
  rw [hex]

theorem gns_eval_obj (loads : Str → Option Json) (prompt response sub : Str)
    (hex : extractBraces (pyStrip response) = some sub)
    (fields : List (Str × Json)) (hl : loads sub = some (.obj fields)) :
    generate_notebook_structure loads prompt response =
      (if hasKey fields (str "title") && hasKey fields (str "sections") then
        Json.obj fields
       else defaultStructure prompt) := by
  rw [generate_notebook_structure_some loads prompt response sub hex, hl]

theorem gns_eval_none (loads : Str → Option Json) (prompt response sub : Str)
    (hex : extractBraces (pyStrip response) = some sub)
    (hl : loads sub = none) :
    generate_notebook_structure loads prompt response = defaultStructure prompt := by
  rw [generate_notebook_structure_some loads prompt response sub hex, hl]

theorem extractBraces_none_left (r : Str)
    (ha : findSub [Char.ofNat 123] r = none) : extractBraces r = none := by
  unfold extractBraces
  rw [ha]

theorem extractBraces_none_right (r : Str) (a : Nat)
    (ha : findSub [Char.ofNat 123] r = some a)
    (hb : rfindChar (Char.ofNat 125) r = none) : extractBraces r = none := by
  unfold extractBraces
  rw [ha, hb]

theorem extractBraces_some_some (r : Str) (a b : Nat)
    (ha : findSub [Char.ofNat 123] r = some a)
    (hb : rfindChar (Char.ofNat 125) r = some b) :
    extractBraces r =
      if b + 1 > a then some ((r.drop a).take (b + 1 - a)) else none := by
  unfold extractBraces
  rw [ha, hb]

/-- C7: `generate_notebook_structure` extracts the slice of its (stripped)
response running from the first open brace to the last close brace, returns
the parsed JSON object exactly when it is a dict containing `title` and
`sections`, and in every other case (no brace pair, parse failure, missing
fields) returns the default single-section structure; the result always
carries both `title` and `sections`, and no error reaches the caller. -/
theorem C7_structure_extraction_fallback :
    ∀ (loads : Str → Option Json) (prompt response : Str),
      (∃ fields, generate_notebook_structure loads prompt response = .obj fields ∧
        hasKey fields (str "title") = true ∧
        hasKey fields (str "sections") = true) ∧
      (∀ sub fields, extractBraces (pyStrip response) = some sub →
        loads sub = some (.obj fields) →
        hasKey fields (str "title") = true →
        hasKey fields (str "sections") = true →
        generate_notebook_structure loads prompt response = .obj fields) ∧
      (∀ sub j, extractBraces (pyStrip response) = some sub → loads sub = some j →
        (∀ fields, j = .obj fields →
          ¬(hasKey fields (str "title") = true ∧
            hasKey fields (str "sections") = true)) →
        generate_notebook_structure loads prompt response = defaultStructure prompt) ∧
      (∀ sub, extractBraces (pyStrip response) = some sub → loads sub = none →
        generate_notebook_structure loads prompt response = defaultStructure prompt) ∧
      (extractBraces (pyStrip response) = none →
        generate_notebook_structure loads prompt response = defaultStructure prompt) ∧
      (∀ sub, extractBraces (pyStrip response) = some sub →
        ∃ pre post, pyStrip response = pre ++ sub ++ post ∧
          Char.ofNat 123 ∉ pre ∧ Char.ofNat 125 ∉ post ∧
          sub.head? = some (Char.ofNat 123) ∧
          sub.getLast? = some (Char.ofNat 125)) := by
  intro loads prompt response
  refine ⟨?_, ?_, ?_, ?_, ?_, ?_⟩
  · rcases hex : extractBraces (pyStrip response) with _ | sub
    · rw [generate_notebook_structure_none loads prompt response hex]
      exact ⟨_, rfl, rfl, rfl⟩
    · rcases hl : loads sub with _ | j
      · rw [gns_eval_none loads prompt response sub hex hl]
        exact ⟨_, rfl, rfl, rfl⟩
      · cases j with
        | obj fields =>
          rw [gns_eval_obj loads prompt response sub hex fields hl]
          by_cases hk : hasKey fields (str "title") && hasKey fields (str "sections")
          · rw [if_pos hk]
            have hks := hk
            simp only [Bool.and_eq_true] at hks
            exact ⟨fields, rfl, hks.1, hks.2⟩
          · rw [if_neg hk]
            exact ⟨_, rfl, rfl, rfl⟩
        | null =>
          rw [generate_notebook_structure_some loads prompt response sub hex, hl]
          exact ⟨_, rfl, rfl, rfl⟩
        | bool b =>
          rw [generate_notebook_structure_some loads prompt response sub hex, hl]
          exact ⟨_, rfl, rfl, rfl⟩
        | num n =>
          rw [generate_notebook_structure_some loads prompt response sub hex, hl]
          exact ⟨_, rfl, rfl, rfl⟩
        | jstr s2 =>
          rw [generate_notebook_structure_some loads prompt response sub hex, hl]
          exact ⟨_, rfl, rfl, rfl⟩
        | arr xs =>
          rw [generate_notebook_structure_some loads prompt response sub hex, hl]
          exact ⟨_, rfl, rfl, rfl⟩
  · intro sub fields hex hl h1 h2
    rw [gns_eval_obj loads prompt response sub hex fields hl]
    rw [if_pos (by rw [h1, h2]; rfl)]
  · intro sub j hex hl hnot
    cases j with
    | obj fields =>
      rw [gns_eval_obj loads prompt response sub hex fields hl]
      rw [if_neg (fun hc => hnot fields rfl (by simpa using hc))]
    | null => rw [generate_notebook_structure_some loads prompt response sub hex, hl]
    | bool b => rw [generate_notebook_structure_some loads prompt response sub hex, hl]
    | num n => rw [generate_notebook_structure_some loads prompt response sub hex, hl]
    | jstr s2 => rw [generate_notebook_structure_some loads prompt response sub hex, hl]
    | arr xs => rw [generate_notebook_structure_some loads prompt response sub hex, hl]
  · intro sub hex hl
    exact gns_eval_none loads prompt response sub hex hl
  · intro hex
    exact generate_notebook_structure_none loads prompt response hex
  · intro sub hex
    rcases ha : findSub [Char.ofNat 123] (pyStrip response) with _ | a
    · rw [extractBraces_none_left _ ha] at hex
      exact Option.noConfusion hex
    · rcases hb : rfindChar (Char.ofNat 125) (pyStrip response) with _ | b
      · rw [extractBraces_none_right _ a ha hb] at hex
        exact Option.noConfusion hex
      · rw [extractBraces_some_some _ a b ha hb] at hex
        by_cases hba : b + 1 > a
        · rw [if_pos hba] at hex
          injection hex with hsub
          subst hsub
          obtain ⟨hblen, hbc, hbafter⟩ := rfindChar_spec hb
          have habound := findSub_some_bound ha
          simp only [List.length_cons, List.length_nil] at habound
          refine ⟨(pyStrip response).take a, (pyStrip response).drop (b + 1),
            ?_, findChar_not_mem_take ha, hbafter, ?_, ?_⟩
          · have h2 : ((pyStrip response).drop a).drop (b + 1 - a) =
                (pyStrip response).drop (b + 1) := by
              rw [List.drop_drop]
              congr 1
              omega
            calc pyStrip response
                = (pyStrip response).take a ++ (pyStrip response).drop a :=
                  (List.take_append_drop a _).symm
              _ = (pyStrip response).take a ++
                    (((pyStrip response).drop a).take (b + 1 - a) ++
                      ((pyStrip response).drop a).drop (b + 1 - a)) := by
                  rw [List.take_append_drop (b + 1 - a) ((pyStrip response).drop a)]
              _ = (pyStrip response).take a ++
                    ((pyStrip response).drop a).take (b + 1 - a) ++
                    (pyStrip response).drop (b + 1) := by
                  rw [h2, List.append_assoc]
          · have hpre := findSub_some_drop ha
            rw [singleton_isPrefixOf_iff] at hpre
            rw [List.head?_eq_getElem?, List.getElem?_take, if_pos (by omega)]
            rw [← List.head?_eq_getElem?]
            exact hpre
          · have hlenX : (((pyStrip response).drop a).take (b + 1 - a)).length =
                b + 1 - a := by
              simp only [List.length_take, List.length_drop]
              omega
            rw [List.getLast?_eq_getElem?, hlenX]
            rw [List.getElem?_take, if_pos (by omega)]
            rw [List.getElem?_drop]
            rw [show a + (b + 1 - a - 1) = b by omega]
            exact hbc
        · rw [if_neg hba] at hex
          exact Option.noConfusion hex

def respW : Str := 'x' :: Char.ofNat 123 :: Char.ofNat 125 :: ['y']

def subW : Str := [Char.ofNat 123, Char.ofNat 125]

theorem C7_structure_extraction_fallback_witness :
    generate_notebook_structure (fun _ => none) (str "p") respW =
      defaultStructure (str "p") ∧
    ∃ pre post, pyStrip respW = pre ++ subW ++ post ∧
      Char.ofNat 123 ∉ pre ∧ Char.ofNat 125 ∉ post ∧
      subW.head? = some (Char.ofNat 123) ∧
      subW.getLast? = some (Char.ofNat 125) :=
  ⟨(C7_structure_extraction_fallback (fun _ => none) (str "p") respW).2.2.2.1
      subW rfl rfl,
   (C7_structure_extraction_fallback (fun _ => none) (str "p") respW).2.2.2.2.2
      subW rfl⟩

end NeuralNotebook
